import Mathlib

/-!
# Verification of the Cat-Animation-Generator frame pipeline

A shallow embedding of `src/app.py` (heart-rain animation frame generator).

Modelling conventions:
* Python floats are modelled as exact rationals (`ℚ`); Python `int(...)`
  (truncation toward zero) is `pyInt`.
* Raster images are width/height plus a pixel function; RGBA channel values
  are natural numbers.
* The ambient randomness (`random.randint`, `random.random`) is injected as
  explicit streams, following the spec's design note that the random source
  be an explicit parameter.
* Pillow primitives used by the code are modelled at the level the program
  observes them: `Image.alpha_composite(im, dest=...)` rejects a negative
  `dest` with `ValueError: Destination must be non-negative` and otherwise
  clips the overlay to the canvas; `ImageDraw.ellipse`/`polygon` fill the
  closed ellipse/triangle determined by their arguments; LANCZOS resampling,
  glyph shapes, text metrics and the exact integer rounding of the alpha
  blend are not observable by any property proved here and are given
  concrete stand-in definitions.
* Fallible code paths return `Except String`.
-/

/-- RGBA pixel: (red, green, blue, alpha), each 0..255. -/
abbrev RGBA : Type := ℕ × ℕ × ℕ × ℕ

/-- RGB pixel (after flattening to an opaque raster). -/
abbrev RGB : Type := ℕ × ℕ × ℕ

/-- An RGBA raster image: dimensions plus a pixel map. -/
structure Img where
  width : ℕ
  height : ℕ
  px : ℕ → ℕ → RGBA

/-- An RGB raster image (the flattened, opaque output format). -/
structure RGBImg where
  width : ℕ
  height : ℕ
  px : ℕ → ℕ → RGB

/-- Python `int(q)`: truncation toward zero. -/
def pyInt (q : ℚ) : ℤ :=
  if 0 ≤ q then ⌊q⌋ else -⌊-q⌋

/-- Cross product of the vectors `(bx,my) - (ax,ay)` and `(px,py) - (ax,ay)`;
used for the point-in-triangle test. -/
def cross2 (ax ay bx my px py : ℚ) : ℚ :=
  (bx - ax) * (py - ay) - (my - ay) * (px - ax)

/-- `(px,py)` and `(qx,qy)` lie on the same closed side of the line through
`(ax,ay)` and `(bx,my)`. -/
def sameSide (ax ay bx my px py qx qy : ℚ) : Bool :=
  decide (0 ≤ cross2 ax ay bx my px py * cross2 ax ay bx my qx qy)

/-- Point-in-closed-triangle test for Pillow's core `ImagingDrawPolygon`
with a triangular vertex list.  The `ImageDraw.polygon` binding truncates
each float vertex coordinate to an int (C `(int)` cast) before calling the
core rasterizer, so this predicate is always applied to already-truncated
(integer-valued) vertices; a point is filled iff it is on the inner closed
side of all three edges (the filled polygon includes its edges). -/
def inTriangle (ax ay bx my cx cy px py : ℚ) : Bool :=
  sameSide ax ay bx my px py cx cy &&
  sameSide bx my cx cy px py ax ay &&
  sameSide cx cy ax ay px py bx my

/-- Point-in-closed-ellipse test for Pillow's core `ImagingDrawEllipse`
with bounding box `(x0, y0, x1, y1)`.  The `ImageDraw.ellipse` binding
truncates each float bbox coordinate to an int (C `(int)` cast) before
calling the core rasterizer, so this predicate is always applied to
already-truncated (integer-valued) coordinates; a point is filled iff it
lies inside the axis-aligned ellipse inscribed in the box (boundary
included). -/
def inEllipse (x0 y0 x1 y1 px py : ℚ) : Bool :=
  decide (|px - (x0 + x1) / 2| ≤ (x1 - x0) / 2) &&
  decide (|py - (y0 + y1) / 2| ≤ (y1 - y0) / 2) &&
  decide (((y1 - y0) / 2) ^ 2 * (px - (x0 + x1) / 2) ^ 2 +
            ((x1 - x0) / 2) ^ 2 * (py - (y0 + y1) / 2) ^ 2 ≤
          (((x1 - x0) / 2) * ((y1 - y0) / 2)) ^ 2)

/-- The heart silhouette of `create_heart` (src/app.py lines 63-97) at pixel
`(i, j)`: the union of the left circle, the right circle and the bottom
triangle, with `radius = size // 2`, `circle_radius = 0.65 * radius` and
`circle_offset = 0.35 * radius`.  Pillow's `ImageDraw` bindings truncate
every bbox coordinate of `ellipse` and every vertex coordinate of
`polygon` to an int (C `(int)` cast, truncation toward zero = `pyInt`)
before rasterizing, so each coordinate below is truncated; `radius` and
`size` are already integers, on which the cast is the identity. -/
def heartRegion (size : ℕ) (i j : ℕ) : Bool :=
  let radius : ℚ := (size / 2 : ℕ)
  let circle_radius : ℚ := radius * (13 / 20)
  let circle_offset : ℚ := radius * (7 / 20)
  inEllipse (pyInt (radius - 2 * circle_radius + circle_offset) : ℚ)
      (pyInt (radius - 2 * circle_radius) : ℚ)
      (pyInt (radius + circle_offset) : ℚ) (pyInt radius : ℚ) i j ||
  inEllipse (pyInt (radius - circle_offset) : ℚ)
      (pyInt (radius - 2 * circle_radius) : ℚ)
      (pyInt (radius + 2 * circle_radius - circle_offset) : ℚ)
      (pyInt radius : ℚ) i j ||
  inTriangle (pyInt (radius - 2 * circle_radius + circle_offset) : ℚ)
      (pyInt (radius - circle_radius) : ℚ)
      (pyInt (radius + 2 * circle_radius - circle_offset) : ℚ)
      (pyInt (radius - circle_radius) : ℚ)
      (pyInt radius : ℚ) (pyInt (size : ℚ) : ℚ) i j

/-- `create_heart` (src/app.py lines 49-98): a `size`×`size` RGBA raster,
fill colour on the heart region (rasterized with Pillow's int-truncating
draw primitives, see `heartRegion`), transparent elsewhere. -/
def create_heart (size : ℕ) (color : RGBA := (255, 105, 180, 200)) : Img :=
  { width := size
    height := size
    px := fun i j => if heartRegion size i j then color else (0, 0, 0, 0) }

/-- A Pillow font handle: either a TrueType font loaded from a path at a
point size, or the built-in default bitmap font (`ImageFont.load_default`). -/
inductive PFont where
  | truetype (path : String) (size : ℕ)
  | defaultBitmap
  deriving DecidableEq

/-- The ordered candidate font paths of `load_font` (src/app.py lines 34-38). -/
def font_paths : List String :=
  ["/usr/share/fonts/truetype/dejavu/DejaVuSans-Bold.ttf",
   "/usr/share/fonts/truetype/dejavu/DejaVuSans.ttf",
   "/usr/share/fonts/truetype/freefont/FreeSansBold.ttf"]

/-- The path-probing loop of `load_font` (src/app.py lines 39-46): for each
path, if the file exists (`os.path.isfile`) and `ImageFont.truetype`
succeeds on it, return that font; otherwise continue; after the list is
exhausted return the built-in default font.  The filesystem and the
loader's success are injected as the predicates `isfile` and `canLoad`. -/
def load_font_from (isfile canLoad : String → Bool) (size : ℕ) :
    List String → PFont
  | [] => PFont.defaultBitmap
  | p :: rest =>
    if isfile p && canLoad p then PFont.truetype p size
    else load_font_from isfile canLoad size rest

/-- `load_font` (src/app.py lines 21-46). -/
def load_font (isfile canLoad : String → Bool) (size : ℕ) : PFont :=
  load_font_from isfile canLoad size font_paths

/-- Model of Pillow's text measurement (`ImageDraw.textsize`, src/app.py
line 142): an external library routine, modelled as a monospace metric
(glyph box per character).  No property proved here depends on the actual
metric values, only on how the program uses the measured width. -/
def textsize (font : PFont) (msg : String) : ℕ × ℕ :=
  match font with
  | PFont.truetype _ sz => (sz * msg.length * 3 / 5, sz)
  | PFont.defaultBitmap => (6 * msg.length, 11)

/-- Model of `ImageDraw.text` (src/app.py lines 153-155): paints the fill
colour over the rendered text's bounding box at `pos` (glyph shapes are
external to the program; the box is the measured `textsize` box), leaving
all other pixels unchanged.  Out-of-canvas parts are simply absent because
a raster only has pixels at coordinates below its dimensions. -/
def draw_text (font : PFont) (img : Img) (pos : ℤ × ℤ) (msg : String)
    (fill : RGBA) : Img :=
  { width := img.width
    height := img.height
    px := fun i j =>
      if pos.1 ≤ (i : ℤ) ∧ (i : ℤ) < pos.1 + (textsize font msg).1 ∧
          pos.2 ≤ (j : ℤ) ∧ (j : ℤ) < pos.2 + (textsize font msg).2
      then fill else img.px i j }

/-- One queued text-draw instruction of the compositor. -/
structure TextOp where
  pos : ℤ × ℤ
  msg : String
  fill : RGBA
  deriving DecidableEq

/-- The caption pass of the frame loop (src/app.py lines 149-155): compute
`msg_x = int((width - text_w) / 2)`, then draw the shadow text at
`(msg_x + 2, msg_y + 2)` with semi-transparent black `(0,0,0,160)` and the
main text at `(msg_x, msg_y)` with opaque white `(255,255,255,255)`,
shadow first. -/
def frame_text_ops (width text_w : ℕ) (msg_y : ℤ) (msg : String) :
    List TextOp :=
  let msg_x : ℤ := pyInt (((width : ℚ) - (text_w : ℚ)) / 2)
  [{ pos := (msg_x + 2, msg_y + 2), msg := msg, fill := (0, 0, 0, 160) },
   { pos := (msg_x, msg_y), msg := msg, fill := (255, 255, 255, 255) }]

/-- Apply a list of text-draw instructions to an image, in list order. -/
def apply_text_ops (font : PFont) (img : Img) : List TextOp → Img
  | [] => img
  | op :: rest => apply_text_ops font (draw_text font img op.pos op.msg op.fill) rest

/-- One falling-heart particle (src/app.py line 133): first visible frame,
horizontal anchor, sprite size. -/
structure Heart where
  start : ℕ
  x : ℕ
  size : ℕ
  deriving DecidableEq

/-- Model of `random.randint(a, b)` (inclusive bounds) driven by one drawn
entropy value `r`: for `a ≤ b` the result lies in `[a, b]`. -/
def randint (r a b : ℕ) : ℕ := a + r % (b - a + 1)

/-- The fixed particle count (src/app.py line 127). -/
def heart_count : ℕ := 15

/-- The particle-generation loop of `generate_frames` (src/app.py lines
127-133): `heart_count` hearts, each drawing `start ∈ [0, total_frames//2]`,
`x ∈ [0, width]` and `size ∈ [int(width*0.03), int(width*0.08)]` from the
injected entropy stream `rng` (three draws per heart, in program order).
`int(width*0.03)` and `int(width*0.08)` are the exact values
`⌊3·width/100⌋` and `⌊8·width/100⌋`. -/
def generate_hearts (rng : ℕ → ℕ) (total_frames width : ℕ) : List Heart :=
  (List.range heart_count).map fun i =>
    { start := randint (rng (3 * i)) 0 (total_frames / 2)
      x := randint (rng (3 * i + 1)) 0 width
      size := randint (rng (3 * i + 2)) (3 * width / 100) (8 * width / 100) }

/-- The per-run sprite cache (`heart_cache`, a Python dict from size to
sprite, src/app.py line 135), modelled as an association list. -/
abbrev HeartCache := List (ℕ × Img)

/-- Dict lookup in the sprite cache. -/
def cache_find : HeartCache → ℕ → Option Img
  | [], _ => none
  | (k, im) :: rest, s => if k = s then some im else cache_find rest s

/-- The cache access of the frame loop (src/app.py lines 167-170): if `size`
is not cached, rasterize `create_heart size` and store it; then return the
cached sprite.  The boolean reports whether the rasterizer was invoked. -/
def cache_get (cache : HeartCache) (size : ℕ) : Img × HeartCache × Bool :=
  match cache_find cache size with
  | some im => (im, cache, false)
  | none => (create_heart size, (size, create_heart size) :: cache, true)

/-- Integer model of Pillow's alpha blend (the `over` operator used by
`alpha_composite`): premultiplied-alpha blend at scale 255.  The exact
rounding of Pillow's C implementation is not observable by any property
proved here. -/
def blend_px (dst src : RGBA) : RGBA :=
  match dst, src with
  | (dr, dg, db, da), (sr, sg, sb, sa) =>
    let oa := sa * 255 + da * (255 - sa)
    if oa = 0 then (0, 0, 0, 0)
    else ((sr * sa * 255 + dr * da * (255 - sa)) / oa,
          (sg * sa * 255 + dg * da * (255 - sa)) / oa,
          (sb * sa * 255 + db * da * (255 - sa)) / oa,
          oa / 255)

/-- Pillow's in-place `Image.alpha_composite(im, dest=(x, y))` (src/app.py
line 176): if either destination coordinate is negative it raises
`ValueError: Destination must be non-negative` (Pillow rejects negative
`dest`; this is why out-of-canvas sprites are not simply clipped on the
top/left).  Otherwise the overlay is alpha-blended over the destination;
overlay parts beyond the right/bottom edge are clipped because the raster
has no pixels there. -/
def alpha_composite_dest (dst ov : Img) (dest : ℤ × ℤ) :
    Except String Img :=
  if dest.1 < 0 ∨ dest.2 < 0 then Except.error "Destination must be non-negative"
  else Except.ok
    { width := dst.width
      height := dst.height
      px := fun i j =>
        if dest.1 ≤ (i : ℤ) ∧ (i : ℤ) < dest.1 + ov.width ∧
            dest.2 ≤ (j : ℤ) ∧ (j : ℤ) < dest.2 + ov.height
        then blend_px (dst.px i j) (ov.px ((i : ℤ) - dest.1).toNat ((j : ℤ) - dest.2).toNat)
        else dst.px i j }

/-- The particle's vertical position (src/app.py lines 162-163): fall
progress `t = rel / (total_frames - start)` and
`y = -size + t * (height + size * 2)`. -/
def heart_y (total_frames height : ℕ) (h : Heart) (frame_idx : ℕ) : ℚ :=
  let t : ℚ := ((frame_idx : ℚ) - (h.start : ℚ)) / ((total_frames : ℚ) - (h.start : ℚ));
  -(h.size : ℚ) + t * ((height : ℚ) + (h.size : ℚ) * 2)

/-- The body of the per-heart loop (src/app.py lines 157-176) for one heart:
skip if not yet started (`rel < 0`); raise `ZeroDivisionError` if the fall
window is empty (Python division by zero; never reached, see C10); skip if
already fallen past the bottom (`y > height`); otherwise fetch the sprite
through the cache, apply the per-render drift
`int((r - 0.5) * size * 0.2)`, and composite at
`(int(x - size/2 + drift), int(y))`. -/
def draw_heart (total_frames height : ℕ) (drift_r : ℚ) (frame_idx : ℕ)
    (frame : Img) (cache : HeartCache) (h : Heart) :
    Except String (Img × HeartCache) :=
  if frame_idx < h.start then Except.ok (frame, cache)
  else if total_frames = h.start then Except.error "ZeroDivisionError"
  else if (height : ℚ) < heart_y total_frames height h frame_idx then
    Except.ok (frame, cache)
  else
    match alpha_composite_dest frame (cache_get cache h.size).1
        (pyInt ((h.x : ℚ) - (h.size : ℚ) / 2 +
          ((pyInt ((drift_r - 1 / 2) * (h.size : ℚ) * (1 / 5)) : ℤ) : ℚ)),
         pyInt (heart_y total_frames height h frame_idx)) with
    | Except.error e => Except.error e
    | Except.ok fr => Except.ok (fr, (cache_get cache h.size).2.1)

/-- The per-heart loop over the particle list (src/app.py line 157),
threading the frame and the sprite cache; `drift` supplies the per-render
`random.random()` value for the heart at each list position. -/
def draw_hearts (total_frames height : ℕ) (drift : ℕ → ℚ) (frame_idx : ℕ) :
    List Heart → ℕ → Img → HeartCache → Except String (Img × HeartCache)
  | [], _, frame, cache => Except.ok (frame, cache)
  | h :: rest, i, frame, cache =>
    match draw_heart total_frames height (drift i) frame_idx frame cache h with
    | Except.error e => Except.error e
    | Except.ok (fr, c) =>
      draw_hearts total_frames height drift frame_idx rest (i + 1) fr c

/-- `Image.convert("RGB")` (src/app.py line 177): discard the alpha channel,
producing the flattened opaque output raster. -/
def convert_rgb (img : Img) : RGBImg :=
  { width := img.width
    height := img.height
    px := fun i j => ((img.px i j).1, (img.px i j).2.1, (img.px i j).2.2.1) }

/-- The read-only per-run data shared by every frame of the loop
(src/app.py lines 124-145): background canvas, dimensions, frame budget,
particle list, font, measured caption width, caption baseline, caption
text, and the per-render drift entropy (frame index → heart index →
`random.random()` value). -/
structure RenderCtx where
  bg : Img
  width : ℕ
  height : ℕ
  total_frames : ℕ
  hearts : List Heart
  font : PFont
  text_w : ℕ
  msg_y : ℤ
  msg : String
  drift : ℕ → ℕ → ℚ

/-- One iteration of the frame loop (src/app.py lines 146-177): copy the
background, draw the shadow and main caption, draw all active hearts
through the cache, and flatten to RGB. -/
def render_frame (ctx : RenderCtx) (frame_idx : ℕ) (cache : HeartCache) :
    Except String (RGBImg × HeartCache) :=
  match draw_hearts ctx.total_frames ctx.height (ctx.drift frame_idx) frame_idx
      ctx.hearts 0
      (apply_text_ops ctx.font ctx.bg
        (frame_text_ops ctx.width ctx.text_w ctx.msg_y ctx.msg))
      cache with
  | Except.error e => Except.error e
  | Except.ok (fr, c) => Except.ok (convert_rgb fr, c)

/-- The frame loop (src/app.py lines 145-178): produce `count` frames
starting at `frame_idx`, threading the sprite cache, appending each
flattened frame in index order. -/
def render_frames (ctx : RenderCtx) :
    ℕ → ℕ → HeartCache → Except String (List RGBImg)
  | 0, _, _ => Except.ok []
  | count + 1, frame_idx, cache =>
    match render_frame ctx frame_idx cache with
    | Except.error e => Except.error e
    | Except.ok (fr, c) =>
      match render_frames ctx count (frame_idx + 1) c with
      | Except.error e => Except.error e
      | Except.ok rest => Except.ok (fr :: rest)

/-- The injected ambient state of one run: the filesystem and font-loader
predicates for `load_font`, the `random.randint` entropy stream for
particle generation, and the `random.random()` drift entropy per
(frame, heart) render. -/
structure Env where
  isfile : String → Bool
  canLoad : String → Bool
  rng : ℕ → ℕ
  rand : ℕ → ℕ → ℚ

/-- Model of `Image.resize((width, height), Image.LANCZOS)` (src/app.py
line 124): dimension-faithful; the resampled pixel values stand in for
LANCZOS resampling, which is external to the program and not observable by
any property proved here. -/
def resize (img : Img) (w h : ℕ) : Img :=
  { width := w
    height := h
    px := fun i j => img.px (i * img.width / w) (j * img.height / h) }

/-- The shared per-run setup of `generate_frames` (src/app.py lines
124-145): resized background, frame budget, particles, font at
`int(height*0.06)`, measured caption size, and caption baseline
`int(height*0.05)`. -/
def make_ctx (env : Env) (base_image : Img) (message : String)
    (width height fps duration : ℕ) : RenderCtx :=
  let total_frames := fps * duration
  let font := load_font env.isfile env.canLoad (6 * height / 100)
  { bg := resize base_image width height
    width := width
    height := height
    total_frames := total_frames
    hearts := generate_hearts env.rng total_frames width
    font := font
    text_w := (textsize font message).1
    msg_y := ((5 * height / 100 : ℕ) : ℤ)
    msg := message
    drift := env.rand }

/-- `generate_frames` (src/app.py lines 101-178): the full pipeline, from
background image and caption to the ordered list of flattened frames (or
the Pillow error it raises). -/
def generate_frames (env : Env) (base_image : Img) (message : String)
    (width : ℕ := 720) (height : ℕ := 720) (fps : ℕ := 15)
    (duration : ℕ := 5) : Except String (List RGBImg) :=
  render_frames (make_ctx env base_image message width height fps duration)
    (fps * duration) 0 []

/-- The frame at one index computed independently of any earlier frame,
with a fresh (empty) sprite cache: the cache is semantically transparent
(every stored sprite is the rasterization of its key), so this equals the
frame the full run produces at that index. -/
def frame_at (ctx : RenderCtx) (frame_idx : ℕ) : Except String RGBImg :=
  match render_frame ctx frame_idx [] with
  | Except.error e => Except.error e
  | Except.ok (fr, _) => Except.ok fr

/-- The frame of `generate_frames` at one index, computed independently. -/
def frame_pure (env : Env) (base_image : Img) (message : String)
    (width height fps duration : ℕ) (frame_idx : ℕ) :
    Except String RGBImg :=
  frame_at (make_ctx env base_image message width height fps duration) frame_idx

/-- The sprite-cache well-formedness invariant: every stored entry is the
rasterization of its key. -/
def CacheWF (cache : HeartCache) : Prop :=
  ∀ p ∈ cache, p.2 = create_heart p.1

/-- How many of the cache requests in `reqs` (processed left to right,
threading the cache) invoke the rasterizer for size `s`. -/
def cache_run_count (cache : HeartCache) (s : ℕ) : List ℕ → ℕ
  | [] => 0
  | s' :: rest =>
    (if s' = s ∧ (cache_get cache s').2.2 = true then 1 else 0) +
      cache_run_count (cache_get cache s').2.1 s rest

/-- A concrete environment: no font file resolves, all `randint` entropy is
0 (every heart gets the minimal start, x and size), and every
`random.random()` draw is 1/2, which makes the computed drift exactly 0. -/
def env0 : Env :=
  { isfile := fun _ => false
    canLoad := fun _ => false
    rng := fun _ => 0
    rand := fun _ _ => 1 / 2 }

/-- A concrete 1×1 red background image. -/
def base0 : Img :=
  { width := 1, height := 1, px := fun _ _ => (255, 0, 0, 255) }

/-! ## Helper lemmas -/

theorem pyInt_abs_le (q : ℚ) : |(pyInt q : ℚ) - q| ≤ 1 := by
  unfold pyInt
  by_cases h : 0 ≤ q
  · rw [if_pos h, abs_le]
    have h1 := Int.floor_le q
    have h2 := Int.lt_floor_add_one q
    exact ⟨by linarith, by linarith⟩
  · rw [if_neg h, abs_le]
    have h1 := Int.floor_le (-q)
    have h2 := Int.lt_floor_add_one (-q)
    constructor <;> push_cast <;> linarith

theorem pyInt_neg_natCast (n : ℕ) (hn : 1 ≤ n) : pyInt (-(n : ℚ)) = -(n : ℤ) := by
  unfold pyInt
  rw [if_neg, neg_neg, Int.floor_natCast]
  have : (1 : ℚ) ≤ (n : ℚ) := by exact_mod_cast hn
  linarith

theorem left_le_randint (r a b : ℕ) : a ≤ randint r a b :=
  Nat.le_add_right a _

theorem randint_le_right (r a b : ℕ) (h : a ≤ b) : randint r a b ≤ b := by
  unfold randint
  have : r % (b - a + 1) < b - a + 1 := Nat.mod_lt _ (by omega)
  omega

theorem generate_hearts_mem (rng : ℕ → ℕ) (total width : ℕ) (h : Heart)
    (hmem : h ∈ generate_hearts rng total width) :
    ∃ i < heart_count,
      h = { start := randint (rng (3 * i)) 0 (total / 2)
            x := randint (rng (3 * i + 1)) 0 width
            size := randint (rng (3 * i + 2)) (3 * width / 100) (8 * width / 100) } := by
  unfold generate_hearts at hmem
  obtain ⟨i, hi, rfl⟩ := List.mem_map.mp hmem
  exact ⟨i, List.mem_range.mp hi, rfl⟩

theorem heart_y_at_start (T H : ℕ) (h : Heart) :
    heart_y T H h h.start = -(h.size : ℚ) := by
  unfold heart_y
  simp

theorem heart_y_at_end (T H : ℕ) (h : Heart) (hlt : h.start < T) :
    heart_y T H h T = (H : ℚ) + h.size := by
  unfold heart_y
  have hne : (T : ℚ) - (h.start : ℚ) ≠ 0 := by
    have : (h.start : ℚ) < (T : ℚ) := by exact_mod_cast hlt
    exact sub_ne_zero.mpr (by linarith)
  rw [div_self hne]
  ring

theorem draw_heart_not_started (T H : ℕ) (d : ℚ) (f : ℕ) (frame : Img)
    (cache : HeartCache) (h : Heart) (hf : f < h.start) :
    draw_heart T H d f frame cache h = Except.ok (frame, cache) := by
  unfold draw_heart
  rw [if_pos hf]

theorem draw_heart_fallen (T H : ℕ) (d : ℚ) (f : ℕ) (frame : Img)
    (cache : HeartCache) (h : Heart) (hf : ¬ f < h.start) (hT : T ≠ h.start)
    (hy : (H : ℚ) < heart_y T H h f) :
    draw_heart T H d f frame cache h = Except.ok (frame, cache) := by
  unfold draw_heart
  rw [if_neg hf, if_neg hT, if_pos hy]

theorem alpha_composite_dest_neg (dst ov : Img) (dest : ℤ × ℤ)
    (hneg : dest.1 < 0 ∨ dest.2 < 0) :
    alpha_composite_dest dst ov dest = Except.error "Destination must be non-negative" := by
  unfold alpha_composite_dest
  rw [if_pos hneg]

theorem draw_heart_start_err (T H : ℕ) (d : ℚ) (frame : Img)
    (cache : HeartCache) (h : Heart) (hT : h.start < T) (hs : 1 ≤ h.size) :
    draw_heart T H d h.start frame cache h =
      Except.error "Destination must be non-negative" := by
  unfold draw_heart
  rw [if_neg (lt_irrefl h.start), if_neg (by omega : ¬ T = h.start)]
  simp only [heart_y_at_start]
  have hH : ¬ ((H : ℚ) < -(h.size : ℚ)) := by
    have h1 : (0 : ℚ) ≤ (H : ℚ) := Nat.cast_nonneg H
    have h2 : -(h.size : ℚ) ≤ 0 := neg_nonpos.mpr (Nat.cast_nonneg _)
    linarith
  rw [if_neg hH, pyInt_neg_natCast h.size hs,
    alpha_composite_dest_neg _ _ _ (Or.inr (by omega : -(h.size : ℤ) < 0))]

theorem cache_get_hit (c : HeartCache) (s : ℕ) (im : Img)
    (h : cache_find c s = some im) : cache_get c s = (im, c, false) := by
  unfold cache_get
  rw [h]

theorem cache_get_miss (c : HeartCache) (s : ℕ) (h : cache_find c s = none) :
    cache_get c s = (create_heart s, (s, create_heart s) :: c, true) := by
  unfold cache_get
  rw [h]

theorem cache_find_get_same (c : HeartCache) (s : ℕ) :
    cache_find (cache_get c s).2.1 s = some ((cache_get c s).1) := by
  unfold cache_get
  cases h : cache_find c s with
  | none => simp [cache_find]
  | some im => simpa [cache_find] using h

theorem cache_find_get_preserve (c : HeartCache) (s' s : ℕ) (hne : s' ≠ s) :
    cache_find (cache_get c s').2.1 s = cache_find c s := by
  unfold cache_get
  cases h : cache_find c s' with
  | none => simp [cache_find, hne]
  | some im => rfl

theorem cache_run_count_present (c : HeartCache) (s : ℕ) (im : Img)
    (h : cache_find c s = some im) (reqs : List ℕ) :
    cache_run_count c s reqs = 0 := by
  induction reqs generalizing c im with
  | nil => rfl
  | cons s' rest ih =>
    have hc' : cache_find (cache_get c s').2.1 s = some im := by
      by_cases hs : s' = s
      · subst hs
        rw [cache_get_hit c s' im h]
        exact h
      · rw [cache_find_get_preserve c s' s hs]
        exact h
    have hflag : (if s' = s ∧ (cache_get c s').2.2 = true then 1 else 0) = 0 := by
      by_cases hs : s' = s
      · subst hs
        rw [cache_get_hit c s' im h]
        simp
      · simp [hs]
    show (if s' = s ∧ (cache_get c s').2.2 = true then 1 else 0) +
        cache_run_count (cache_get c s').2.1 s rest = 0
    rw [hflag, ih _ im hc']

theorem cache_run_count_once (c : HeartCache) (s : ℕ)
    (h : cache_find c s = none) (reqs : List ℕ) :
    cache_run_count c s reqs = if s ∈ reqs then 1 else 0 := by
  induction reqs generalizing c with
  | nil => rfl
  | cons s' rest ih =>
    show (if s' = s ∧ (cache_get c s').2.2 = true then 1 else 0) +
        cache_run_count (cache_get c s').2.1 s rest = _
    by_cases hs : s' = s
    · subst hs
      rw [cache_get_miss c s' h]
      have hfound : cache_find ((s', create_heart s') :: c) s' = some (create_heart s') := by
        simp [cache_find]
      rw [cache_run_count_present _ _ _ hfound rest]
      simp
    · have hflag : (if s' = s ∧ (cache_get c s').2.2 = true then 1 else 0) = 0 := by
        simp [hs]
      rw [hflag, ih _ (by rw [cache_find_get_preserve c s' s hs]; exact h)]
      simp [List.mem_cons, Ne.symm hs]

/-- C3: a particle with `start_frame = k` is not drawn (the frame and cache
pass through unchanged) for frames `f < k`; its vertical position at
`f = k` is exactly `y = -size`; for any `f` the position is
`y = -size + (f - k)/(total_frames - k) * (height + 2*size)`; it is skipped
once `y > height`; and at `rel = total_frames - k` (the end of its fall
window) `y = height + size`, fully below the canvas. -/
theorem particle_position_spec (T H : ℕ) (d : ℚ) (f : ℕ) (frame : Img)
    (cache : HeartCache) (h : Heart) :
    (f < h.start → draw_heart T H d f frame cache h = Except.ok (frame, cache)) ∧
    heart_y T H h h.start = -(h.size : ℚ) ∧
    heart_y T H h f =
      -(h.size : ℚ) + ((f : ℚ) - (h.start : ℚ)) / ((T : ℚ) - (h.start : ℚ)) *
        ((H : ℚ) + (h.size : ℚ) * 2) ∧
    (h.start ≤ f → T ≠ h.start → (H : ℚ) < heart_y T H h f →
      draw_heart T H d f frame cache h = Except.ok (frame, cache)) ∧
    (h.start < T → heart_y T H h T = (H : ℚ) + (h.size : ℚ)) :=
  ⟨fun hf => draw_heart_not_started T H d f frame cache h hf,
   heart_y_at_start T H h,
   rfl,
   fun h1 h2 h3 => draw_heart_fallen T H d f frame cache h (not_lt.mpr h1) h2 h3,
   fun hlt => heart_y_at_end T H h hlt⟩

theorem particle_position_spec_witness :
    draw_heart 10 20 (1 / 2) 1 base0 [] ⟨2, 0, 4⟩ = Except.ok (base0, []) ∧
    heart_y 10 20 ⟨2, 0, 4⟩ 10 = ((20 : ℕ) : ℚ) + ((4 : ℕ) : ℚ) := by
  have hsp := particle_position_spec 10 20 (1 / 2) 1 base0 [] ⟨2, 0, 4⟩
  exact ⟨hsp.1 (by decide), hsp.2.2.2.2 (by decide)⟩

/-- C1: the claim (and spec) say sprites whose bounding box leaves the
canvas are composited with out-of-canvas pixels clipped, never failing; in
fact Pillow's `Image.alpha_composite` rejects negative `dest` coordinates
with `ValueError: Destination must be non-negative`, and at a particle's
start frame the destination top is `int(y) = -size < 0`, so the frame
computation raises instead.  Part (a): for every particle with positive
size and a nonempty fall window, the draw at its start frame errors.
Part (b): the full pipeline at the default 720×720, 15 fps, 5 s
parameters raises that error on its first frame. -/
theorem composite_clipping_refuted :
    (∀ (T H : ℕ) (d : ℚ) (frame : Img) (cache : HeartCache) (h : Heart),
      h.start < T → 1 ≤ h.size →
      draw_heart T H d h.start frame cache h =
        Except.error "Destination must be non-negative") ∧
    generate_frames env0 base0 "Hi" 720 720 15 5 =
      Except.error "Destination must be non-negative" :=
  ⟨fun T H d frame cache h hT hs => draw_heart_start_err T H d frame cache h hT hs,
   by with_unfolding_all rfl⟩

theorem composite_clipping_refuted_witness :
    draw_heart 75 720 (1 / 2) (Heart.mk 0 5 21).start base0 [] ⟨0, 5, 21⟩ =
      Except.error "Destination must be non-negative" :=
  composite_clipping_refuted.1 75 720 (1 / 2) base0 [] ⟨0, 5, 21⟩ (by decide) (by decide)

/-- C5: the sprite cache is populated lazily.  On a miss, the first request
for a size invokes the rasterizer (flag `true`), returns `create_heart s`
and stores it; a second request returns the very same stored raster with
the cache unchanged and the rasterizer not invoked (flag `false`); any
request on a cache containing the size is a pure lookup; and over any
request trace the rasterizer runs exactly once for a requested size. -/
theorem sprite_cache_spec (cache : HeartCache) (s : ℕ)
    (hmiss : cache_find cache s = none) :
    (cache_get cache s).2.2 = true ∧
    (cache_get cache s).1 = create_heart s ∧
    cache_find (cache_get cache s).2.1 s = some (create_heart s) ∧
    cache_get ((cache_get cache s).2.1) s =
      (create_heart s, (cache_get cache s).2.1, false) ∧
    (∀ c im, cache_find c s = some im → cache_get c s = (im, c, false)) ∧
    (∀ reqs, cache_run_count cache s reqs = if s ∈ reqs then 1 else 0) := by
  have hmain := cache_get_miss cache s hmiss
  have hfind : cache_find (cache_get cache s).2.1 s = some (create_heart s) := by
    rw [hmain]
    simp [cache_find]
  refine ⟨by rw [hmain], by rw [hmain], hfind, ?_, ?_, ?_⟩
  · rw [cache_get_hit _ _ _ hfind]
  · exact fun c im h => cache_get_hit c s im h
  · exact fun reqs => cache_run_count_once cache s hmiss reqs

theorem sprite_cache_spec_witness :
    (cache_get [] 3).2.2 = true ∧
    cache_get ((cache_get [] 3).2.1) 3 = (create_heart 3, (cache_get [] 3).2.1, false) ∧
    cache_run_count [] 3 [3, 3] = 1 := by
  have h := sprite_cache_spec [] 3 rfl
  refine ⟨h.1, h.2.2.2.1, ?_⟩
  have hc := h.2.2.2.2.2 [3, 3]
  simpa using hc

theorem load_font_from_cases (isfile canLoad : String → Bool) (size : ℕ)
    (paths : List String) :
    (load_font_from isfile canLoad size paths = PFont.defaultBitmap ∨
      ∃ p ∈ paths, isfile p = true ∧ canLoad p = true ∧
        load_font_from isfile canLoad size paths = PFont.truetype p size) ∧
    ((∀ p ∈ paths, isfile p = false ∨ canLoad p = false) →
      load_font_from isfile canLoad size paths = PFont.defaultBitmap) := by
  induction paths with
  | nil => exact ⟨Or.inl rfl, fun _ => rfl⟩
  | cons p rest ih =>
    cases hc : (isfile p && canLoad p) with
    | true =>
      obtain ⟨h1, h2⟩ : isfile p = true ∧ canLoad p = true := by simpa using hc
      have hret : load_font_from isfile canLoad size (p :: rest) =
          PFont.truetype p size := by
        conv_lhs => rw [load_font_from]
        rw [hc]
        rfl
      constructor
      · exact Or.inr ⟨p, List.mem_cons_self p rest, h1, h2, hret⟩
      · intro hall
        rcases hall p (List.mem_cons_self p rest) with hf | hf
        · rw [h1] at hf
          cases hf
        · rw [h2] at hf
          cases hf
    | false =>
      have hrec : load_font_from isfile canLoad size (p :: rest) =
          load_font_from isfile canLoad size rest := by
        conv_lhs => rw [load_font_from]
        rw [hc]
        rfl
      constructor
      · rcases ih.1 with hdef | ⟨q, hq, hq1, hq2, hq3⟩
        · exact Or.inl (hrec.trans hdef)
        · exact Or.inr ⟨q, List.mem_cons_of_mem p hq, hq1, hq2, hrec.trans hq3⟩
      · intro hall
        exact hrec.trans (ih.2 fun q hq => hall q (List.mem_cons_of_mem p hq))

/-- C6: font loading never fails.  For every filesystem and every
outcome of the TrueType loader, `load_font` returns either the built-in
default bitmap font or a TrueType font from its candidate list that both
exists and loads; and when no candidate both exists and loads, it returns
the built-in default font, so caption rendering always has a font. -/
theorem font_fallback_spec (isfile canLoad : String → Bool) (size : ℕ) :
    (load_font isfile canLoad size = PFont.defaultBitmap ∨
      ∃ p ∈ font_paths, isfile p = true ∧ canLoad p = true ∧
        load_font isfile canLoad size = PFont.truetype p size) ∧
    ((∀ p ∈ font_paths, isfile p = false ∨ canLoad p = false) →
      load_font isfile canLoad size = PFont.defaultBitmap) :=
  load_font_from_cases isfile canLoad size font_paths

theorem font_fallback_spec_witness :
    load_font (fun _ => false) (fun _ => false) 43 = PFont.defaultBitmap :=
  (font_fallback_spec (fun _ => false) (fun _ => false) 43).2
    (fun _ _ => Or.inl rfl)

/-- C7: the caption's horizontal draw origin is
`msg_x = int((width - text_w)/2)`, which is within ±1 pixel of the exact
centering position `(width - text_w)/2`; and every frame's caption pass
issues exactly two draws, the semi-transparent dark shadow
`(0,0,0,160)` at `(msg_x+2, msg_y+2)` (offset down-and-right) first,
followed by the opaque light main text `(255,255,255,255)` at
`(msg_x, msg_y)`. -/
theorem caption_layout_spec (width text_w : ℕ) (msg_y : ℤ) (msg : String)
    (font : PFont) (img : Img) :
    frame_text_ops width text_w msg_y msg =
      [{ pos := (pyInt (((width : ℚ) - (text_w : ℚ)) / 2) + 2, msg_y + 2),
         msg := msg, fill := (0, 0, 0, 160) },
       { pos := (pyInt (((width : ℚ) - (text_w : ℚ)) / 2), msg_y),
         msg := msg, fill := (255, 255, 255, 255) }] ∧
    |((pyInt (((width : ℚ) - (text_w : ℚ)) / 2) : ℚ)) -
        ((width : ℚ) - (text_w : ℚ)) / 2| ≤ 1 ∧
    apply_text_ops font img (frame_text_ops width text_w msg_y msg) =
      draw_text font
        (draw_text font img
          (pyInt (((width : ℚ) - (text_w : ℚ)) / 2) + 2, msg_y + 2) msg
          (0, 0, 0, 160))
        (pyInt (((width : ℚ) - (text_w : ℚ)) / 2), msg_y) msg
        (255, 255, 255, 255) :=
  ⟨rfl, pyInt_abs_le _, rfl⟩

/-- C8 (amended): every generated particle satisfies
`0 ≤ start ≤ total_frames/2`, `0 ≤ x ≤ width` and
`⌊0.03*width⌋ ≤ size ≤ ⌊0.08*width⌋` (the code's
`randint(int(width*0.03), int(width*0.08))`; the claim's exact rational
lower bound `0.03*width ≤ size` fails, see the counterexample); exactly
`heart_count = 15` particles are generated per run. -/
theorem particle_bounds_spec (rng : ℕ → ℕ) (total width : ℕ) :
    (generate_hearts rng total width).length = heart_count ∧
    ∀ h ∈ generate_hearts rng total width,
      h.start ≤ total / 2 ∧ (h.start : ℚ) ≤ (total : ℚ) / 2 ∧
      h.x ≤ width ∧
      3 * width / 100 ≤ h.size ∧ h.size ≤ 8 * width / 100 ∧
      (h.size : ℚ) ≤ 8 / 100 * (width : ℚ) := by
  constructor
  · unfold generate_hearts
    rw [List.length_map, List.length_range]
  · intro h hmem
    obtain ⟨i, _, rfl⟩ := generate_hearts_mem rng total width h hmem
    have hstart : randint (rng (3 * i)) 0 (total / 2) ≤ total / 2 :=
      randint_le_right _ _ _ (Nat.zero_le _)
    have hsize : randint (rng (3 * i + 2)) (3 * width / 100) (8 * width / 100) ≤
        8 * width / 100 :=
      randint_le_right _ _ _ (Nat.div_le_div_right (by omega))
    refine ⟨hstart, ?_, randint_le_right _ _ _ (Nat.zero_le _),
      left_le_randint _ _ _, hsize, ?_⟩
    · have h2 : 2 * randint (rng (3 * i)) 0 (total / 2) ≤ total := by omega
      have h2q : ((2 * randint (rng (3 * i)) 0 (total / 2) : ℕ) : ℚ) ≤ (total : ℚ) := by
        exact_mod_cast h2
      push_cast at h2q
      linarith
    · have h2 : 100 * randint (rng (3 * i + 2)) (3 * width / 100) (8 * width / 100) ≤
          8 * width := by omega
      have h2q : ((100 * randint (rng (3 * i + 2)) (3 * width / 100) (8 * width / 100) :
          ℕ) : ℚ) ≤ ((8 * width : ℕ) : ℚ) := by exact_mod_cast h2
      push_cast at h2q
      linarith

theorem particle_bounds_cex :
    (generate_hearts (fun _ => 0) 75 720).get? 0 =
      some { start := 0, x := 0, size := 21 } ∧
    ¬ ((3 / 100 : ℚ) * 720 ≤ ((21 : ℕ) : ℚ)) := by
  constructor
  · with_unfolding_all rfl
  · norm_num

/-- C9: determinism modulo drift.  With the per-render drift entropy fixed
so that every `random.random()` draw is 1/2 (making the computed drift
`int((r - 0.5)*size*0.2)` exactly 0), two runs of `generate_frames` on the
same background, caption, dimensions and the same particle entropy (hence
identical `start_frame`, `x`, `size` for every particle) produce identical
results, in particular pixel-identical frame sequences. -/
theorem determinism_modulo_drift (isf cl : String → Bool) (rng : ℕ → ℕ)
    (d1 d2 : ℕ → ℕ → ℚ) (base : Img) (msg : String) (w h fps dur : ℕ)
    (h1 : ∀ i j, d1 i j = 1 / 2) (h2 : ∀ i j, d2 i j = 1 / 2) :
    generate_frames ⟨isf, cl, rng, d1⟩ base msg w h fps dur =
      generate_frames ⟨isf, cl, rng, d2⟩ base msg w h fps dur := by
  have hd : d1 = d2 := funext fun i => funext fun j => (h1 i j).trans (h2 i j).symm
  rw [hd]

theorem determinism_modulo_drift_witness :
    generate_frames ⟨fun _ => false, fun _ => false, fun _ => 0, fun _ _ => 1 / 2⟩
        base0 "Hi" 8 8 1 1 =
      generate_frames ⟨fun _ => false, fun _ => false, fun _ => 0, fun _ _ => 1 / 2⟩
        base0 "Hi" 8 8 1 1 :=
  determinism_modulo_drift (fun _ => false) (fun _ => false) (fun _ => 0)
    (fun _ _ => 1 / 2) (fun _ _ => 1 / 2) base0 "Hi" 8 8 1 1
    (fun _ _ => rfl) (fun _ _ => rfl)

/-- C10: the fall-progress division never divides by zero.  When
`total_frames ≥ 1`, every generated particle has
`start ≤ total_frames/2 < total_frames`, so the denominator
`total_frames - start` is at least 1 (as a natural number and as a
rational); and when `fps × duration = 0` the frame loop is empty and
`generate_frames` returns the empty list without reaching the division. -/
theorem fall_progress_division_safe (env : Env) (base : Img) (msg : String)
    (w h fps dur : ℕ) (rng : ℕ → ℕ) (total width : ℕ) :
    (1 ≤ total → ∀ hh ∈ generate_hearts rng total width,
      hh.start < total ∧ 1 ≤ total - hh.start ∧
      (1 : ℚ) ≤ (total : ℚ) - (hh.start : ℚ)) ∧
    (fps * dur = 0 → generate_frames env base msg w h fps dur = Except.ok []) := by
  constructor
  · intro htotal hh hmem
    obtain ⟨i, _, rfl⟩ := generate_hearts_mem rng total width hh hmem
    dsimp only
    have hstart : randint (rng (3 * i)) 0 (total / 2) ≤ total / 2 :=
      randint_le_right _ _ _ (Nat.zero_le _)
    have hlt : randint (rng (3 * i)) 0 (total / 2) < total := by omega
    refine ⟨hlt, by omega, ?_⟩
    have hq : ((randint (rng (3 * i)) 0 (total / 2) + 1 : ℕ) : ℚ) ≤ (total : ℚ) := by
      exact_mod_cast hlt
    push_cast at hq
    linarith
  · intro h0
    unfold generate_frames
    rw [h0]
    rfl

theorem fall_progress_division_safe_witness :
    (Heart.mk 0 0 0).start < 2 ∧
    generate_frames env0 base0 "x" 9 9 0 3 = Except.ok [] := by
  have h := fall_progress_division_safe env0 base0 "x" 9 9 0 3 (fun _ => 0) 2 10
  refine ⟨?_, h.2 rfl⟩
  exact (h.1 (by decide) ⟨0, 0, 0⟩ (by decide)).1

theorem cacheWF_nil : CacheWF [] := by
  intro p hp
  cases hp

theorem cache_find_wf (c : HeartCache) (hwf : CacheWF c) (s : ℕ) (im : Img)
    (h : cache_find c s = some im) : im = create_heart s := by
  induction c with
  | nil => cases h
  | cons p rest ih =>
    obtain ⟨k, im'⟩ := p
    rw [cache_find] at h
    by_cases hk : k = s
    · rw [if_pos hk] at h
      have him : im' = create_heart k := hwf (k, im') (List.mem_cons_self _ _)
      cases h
      rw [him, hk]
    · rw [if_neg hk] at h
      exact ih (fun q hq => hwf q (List.mem_cons_of_mem _ hq)) h

theorem cache_get_wf_fst (c : HeartCache) (s : ℕ) (hwf : CacheWF c) :
    (cache_get c s).1 = create_heart s := by
  unfold cache_get
  cases h : cache_find c s with
  | none => rfl
  | some im => exact cache_find_wf c hwf s im h

theorem cache_get_wf_cache (c : HeartCache) (s : ℕ) (hwf : CacheWF c) :
    CacheWF (cache_get c s).2.1 := by
  unfold cache_get
  cases h : cache_find c s with
  | none =>
    intro p hp
    rcases List.mem_cons.mp hp with hp | hp
    · rw [hp]
    · exact hwf p hp
  | some im => exact hwf

theorem alpha_composite_ok_dims (dst ov : Img) (dest : ℤ × ℤ) (r : Img)
    (hok : alpha_composite_dest dst ov dest = Except.ok r) :
    r.width = dst.width ∧ r.height = dst.height := by
  unfold alpha_composite_dest at hok
  split at hok
  · cases hok
  · simp only [Except.ok.injEq] at hok
    subst hok
    exact ⟨rfl, rfl⟩

theorem draw_heart_ok_inv (T H : ℕ) (d : ℚ) (f : ℕ) (frame : Img)
    (c : HeartCache) (h : Heart) (fr : Img) (c2 : HeartCache)
    (hwf : CacheWF c) (hok : draw_heart T H d f frame c h = Except.ok (fr, c2)) :
    CacheWF c2 ∧ fr.width = frame.width ∧ fr.height = frame.height := by
  unfold draw_heart at hok
  by_cases h1 : f < h.start
  · rw [if_pos h1] at hok
    simp only [Except.ok.injEq, Prod.mk.injEq] at hok
    obtain ⟨hf, hc⟩ := hok
    exact ⟨hc ▸ hwf, hf ▸ rfl, hf ▸ rfl⟩
  · rw [if_neg h1] at hok
    by_cases h2 : T = h.start
    · rw [if_pos h2] at hok
      cases hok
    · rw [if_neg h2] at hok
      by_cases h3 : (H : ℚ) < heart_y T H h f
      · rw [if_pos h3] at hok
        simp only [Except.ok.injEq, Prod.mk.injEq] at hok
        obtain ⟨hf, hc⟩ := hok
        exact ⟨hc ▸ hwf, hf ▸ rfl, hf ▸ rfl⟩
      · rw [if_neg h3] at hok
        cases halpha : alpha_composite_dest frame (cache_get c h.size).1
            (pyInt ((h.x : ℚ) - (h.size : ℚ) / 2 +
              ((pyInt ((d - 1 / 2) * (h.size : ℚ) * (1 / 5)) : ℤ) : ℚ)),
             pyInt (heart_y T H h f)) with
        | error e =>
          rw [halpha] at hok
          cases hok
        | ok fr' =>
          rw [halpha] at hok
          simp only [Except.ok.injEq, Prod.mk.injEq] at hok
          obtain ⟨hf, hc⟩ := hok
          have hdims := alpha_composite_ok_dims _ _ _ _ halpha
          exact ⟨hc ▸ cache_get_wf_cache c h.size hwf, hf ▸ hdims.1, hf ▸ hdims.2⟩

theorem draw_heart_fst_congr (T H : ℕ) (d : ℚ) (f : ℕ) (frame : Img)
    (h : Heart) (c c' : HeartCache) (hwf : CacheWF c) (hwf' : CacheWF c') :
    (draw_heart T H d f frame c h).map Prod.fst =
      (draw_heart T H d f frame c' h).map Prod.fst := by
  unfold draw_heart
  by_cases h1 : f < h.start
  · rw [if_pos h1, if_pos h1]
    rfl
  · rw [if_neg h1, if_neg h1]
    by_cases h2 : T = h.start
    · rw [if_pos h2, if_pos h2]
    · rw [if_neg h2, if_neg h2]
      by_cases h3 : (H : ℚ) < heart_y T H h f
      · rw [if_pos h3, if_pos h3]
        rfl
      · rw [if_neg h3, if_neg h3,
          cache_get_wf_fst c h.size hwf, cache_get_wf_fst c' h.size hwf']
        cases halpha : alpha_composite_dest frame (create_heart h.size)
            (pyInt ((h.x : ℚ) - (h.size : ℚ) / 2 +
              ((pyInt ((d - 1 / 2) * (h.size : ℚ) * (1 / 5)) : ℤ) : ℚ)),
             pyInt (heart_y T H h f)) with
        | error e => rfl
        | ok fr' => rfl

theorem draw_hearts_ok_inv (T H : ℕ) (drift : ℕ → ℚ) (f : ℕ)
    (hearts : List Heart) :
    ∀ (i : ℕ) (frame : Img) (c : HeartCache) (fr : Img) (c2 : HeartCache),
      CacheWF c → draw_hearts T H drift f hearts i frame c = Except.ok (fr, c2) →
      CacheWF c2 ∧ fr.width = frame.width ∧ fr.height = frame.height := by
  induction hearts with
  | nil =>
    intro i frame c fr c2 hwf hok
    unfold draw_hearts at hok
    simp only [Except.ok.injEq, Prod.mk.injEq] at hok
    obtain ⟨hf, hc⟩ := hok
    exact ⟨hc ▸ hwf, hf ▸ rfl, hf ▸ rfl⟩
  | cons h rest ih =>
    intro i frame c fr c2 hwf hok
    unfold draw_hearts at hok
    cases hd : draw_heart T H (drift i) f frame c h with
    | error e =>
      rw [hd] at hok
      cases hok
    | ok p =>
      obtain ⟨fr1, c1⟩ := p
      rw [hd] at hok
      have hinv := draw_heart_ok_inv T H (drift i) f frame c h fr1 c1 hwf hd
      have hrest := ih (i + 1) fr1 c1 fr c2 hinv.1 hok
      exact ⟨hrest.1, hrest.2.1.trans hinv.2.1, hrest.2.2.trans hinv.2.2⟩

theorem draw_hearts_fst_congr (T H : ℕ) (drift : ℕ → ℚ) (f : ℕ)
    (hearts : List Heart) :
    ∀ (i : ℕ) (frame : Img) (c c' : HeartCache), CacheWF c → CacheWF c' →
      (draw_hearts T H drift f hearts i frame c).map Prod.fst =
        (draw_hearts T H drift f hearts i frame c').map Prod.fst := by
  induction hearts with
  | nil => intro i frame c c' _ _; rfl
  | cons h rest ih =>
    intro i frame c c' hwf hwf'
    have hcong := draw_heart_fst_congr T H (drift i) f frame h c c' hwf hwf'
    unfold draw_hearts
    cases hd : draw_heart T H (drift i) f frame c h with
    | error e =>
      cases hd' : draw_heart T H (drift i) f frame c' h with
      | error e' =>
        rw [hd, hd'] at hcong
        simp only [Except.map] at hcong
        cases hcong
        rfl
      | ok p' =>
        rw [hd, hd'] at hcong
        obtain ⟨fr1', c1'⟩ := p'
        simp [Except.map] at hcong
    | ok p =>
      obtain ⟨fr1, c1⟩ := p
      cases hd' : draw_heart T H (drift i) f frame c' h with
      | error e' =>
        rw [hd, hd'] at hcong
        simp [Except.map] at hcong
      | ok p' =>
        obtain ⟨fr1', c1'⟩ := p'
        rw [hd, hd'] at hcong
        simp only [Except.map, Except.ok.injEq] at hcong
        subst hcong
        exact ih (i + 1) fr1 c1 c1'
          (draw_heart_ok_inv T H (drift i) f frame c h fr1 c1 hwf hd).1
          (draw_heart_ok_inv T H (drift i) f frame c' h fr1 c1' hwf' hd').1

theorem draw_text_dims (font : PFont) (img : Img) (pos : ℤ × ℤ) (msg : String)
    (fill : RGBA) :
    (draw_text font img pos msg fill).width = img.width ∧
    (draw_text font img pos msg fill).height = img.height :=
  ⟨rfl, rfl⟩

theorem apply_text_ops_dims (font : PFont) :
    ∀ (ops : List TextOp) (img : Img),
      (apply_text_ops font img ops).width = img.width ∧
      (apply_text_ops font img ops).height = img.height := by
  intro ops
  induction ops with
  | nil => exact fun img => ⟨rfl, rfl⟩
  | cons op rest ih =>
    intro img
    have h := ih (draw_text font img op.pos op.msg op.fill)
    exact ⟨h.1, h.2⟩

theorem frame_at_eq (ctx : RenderCtx) (i : ℕ) :
    frame_at ctx i = (render_frame ctx i []).map Prod.fst := by
  unfold frame_at
  cases h : render_frame ctx i [] with
  | error e => rfl
  | ok p =>
    obtain ⟨fr, c⟩ := p
    rfl

theorem render_frame_ok_inv (ctx : RenderCtx) (i : ℕ) (c : HeartCache)
    (fr : RGBImg) (c2 : HeartCache) (hwf : CacheWF c)
    (hok : render_frame ctx i c = Except.ok (fr, c2)) :
    CacheWF c2 ∧ fr.width = ctx.bg.width ∧ fr.height = ctx.bg.height := by
  unfold render_frame at hok
  cases hd : draw_hearts ctx.total_frames ctx.height (ctx.drift i) i ctx.hearts 0
      (apply_text_ops ctx.font ctx.bg
        (frame_text_ops ctx.width ctx.text_w ctx.msg_y ctx.msg)) c with
  | error e =>
    rw [hd] at hok
    cases hok
  | ok p =>
    obtain ⟨fi, c1⟩ := p
    rw [hd] at hok
    simp only [Except.ok.injEq, Prod.mk.injEq] at hok
    obtain ⟨hf, hc⟩ := hok
    have hinv := draw_hearts_ok_inv ctx.total_frames ctx.height (ctx.drift i) i
      ctx.hearts 0 _ c fi c1 hwf hd
    have htext := apply_text_ops_dims ctx.font
      (frame_text_ops ctx.width ctx.text_w ctx.msg_y ctx.msg) ctx.bg
    refine ⟨hc ▸ hinv.1, ?_, ?_⟩
    · rw [← hf]
      exact (hinv.2.1.trans htext.1 : (convert_rgb fi).width = ctx.bg.width)
    · rw [← hf]
      exact (hinv.2.2.trans htext.2 : (convert_rgb fi).height = ctx.bg.height)

theorem render_frame_fst_congr (ctx : RenderCtx) (i : ℕ) (c c' : HeartCache)
    (hwf : CacheWF c) (hwf' : CacheWF c') :
    (render_frame ctx i c).map Prod.fst = (render_frame ctx i c').map Prod.fst := by
  unfold render_frame
  have hcong := draw_hearts_fst_congr ctx.total_frames ctx.height (ctx.drift i) i
    ctx.hearts 0
    (apply_text_ops ctx.font ctx.bg
      (frame_text_ops ctx.width ctx.text_w ctx.msg_y ctx.msg)) c c' hwf hwf'
  cases hd : draw_hearts ctx.total_frames ctx.height (ctx.drift i) i ctx.hearts 0
      (apply_text_ops ctx.font ctx.bg
        (frame_text_ops ctx.width ctx.text_w ctx.msg_y ctx.msg)) c with
  | error e =>
    cases hd' : draw_hearts ctx.total_frames ctx.height (ctx.drift i) i ctx.hearts 0
        (apply_text_ops ctx.font ctx.bg
          (frame_text_ops ctx.width ctx.text_w ctx.msg_y ctx.msg)) c' with
    | error e' =>
      rw [hd, hd'] at hcong
      simp only [Except.map] at hcong
      cases hcong
      rfl
    | ok p' =>
      rw [hd, hd'] at hcong
      obtain ⟨fi', c1'⟩ := p'
      simp [Except.map] at hcong
  | ok p =>
    obtain ⟨fi, c1⟩ := p
    cases hd' : draw_hearts ctx.total_frames ctx.height (ctx.drift i) i ctx.hearts 0
        (apply_text_ops ctx.font ctx.bg
          (frame_text_ops ctx.width ctx.text_w ctx.msg_y ctx.msg)) c' with
    | error e' =>
      rw [hd, hd'] at hcong
      simp [Except.map] at hcong
    | ok p' =>
      obtain ⟨fi', c1'⟩ := p'
      rw [hd, hd'] at hcong
      simp only [Except.map, Except.ok.injEq] at hcong
      subst hcong
      rfl

theorem render_frames_ok_inv (ctx : RenderCtx) :
    ∀ (count idx : ℕ) (c : HeartCache) (frames : List RGBImg), CacheWF c →
      render_frames ctx count idx c = Except.ok frames →
      frames.length = count ∧
      (∀ k, k < count → frames.get? k = (frame_at ctx (idx + k)).toOption) ∧
      (∀ fr ∈ frames, fr.width = ctx.bg.width ∧ fr.height = ctx.bg.height) := by
  intro count
  induction count with
  | zero =>
    intro idx c frames _ hok
    unfold render_frames at hok
    simp only [Except.ok.injEq] at hok
    subst hok
    exact ⟨rfl, fun k hk => absurd hk (by omega), fun fr hfr => absurd hfr
      (List.not_mem_nil fr)⟩
  | succ n ih =>
    intro idx c frames hwf hok
    unfold render_frames at hok
    cases hd : render_frame ctx idx c with
    | error e =>
      rw [hd] at hok
      cases hok
    | ok p =>
      obtain ⟨fr0, c1⟩ := p
      rw [hd] at hok
      dsimp only at hok
      cases hrest : render_frames ctx n (idx + 1) c1 with
      | error e =>
        rw [hrest] at hok
        cases hok
      | ok rest =>
        rw [hrest] at hok
        simp only [Except.ok.injEq] at hok
        subst hok
        have hinv := render_frame_ok_inv ctx idx c fr0 c1 hwf hd
        have ihr := ih (idx + 1) c1 rest hinv.1 hrest
        refine ⟨by simp [ihr.1], ?_, ?_⟩
        · intro k hk
          cases k with
          | zero =>
            have hcong := render_frame_fst_congr ctx idx c [] hwf cacheWF_nil
            rw [hd] at hcong
            rw [Nat.add_zero, frame_at_eq, ← hcong]
            rfl
          | succ k =>
            have := ihr.2.1 k (by omega)
            rw [show idx + (k + 1) = idx + 1 + k by omega]
            exact this
        · intro fr hfr
          rcases List.mem_cons.mp hfr with hfr | hfr
          · exact hfr ▸ ⟨hinv.2.1, hinv.2.2⟩
          · exact ihr.2.2 fr hfr

/-- C2 (amended): whenever `generate_frames` succeeds (returns `ok`; with
the default 720×720 canvas it instead raises on the first composite, see
the counterexample), it returns exactly `fps × duration` flattened RGB
frames of the requested `width × height`, in frame-index order: the k-th
element of the result is the frame at index k (computable independently,
the sprite cache being semantically transparent). -/
theorem frame_sequence_spec (env : Env) (base : Img) (msg : String)
    (w h fps dur : ℕ) (frames : List RGBImg)
    (hok : generate_frames env base msg w h fps dur = Except.ok frames) :
    frames.length = fps * dur ∧
    (∀ k, k < fps * dur →
      frames.get? k = (frame_pure env base msg w h fps dur k).toOption) ∧
    (∀ fr ∈ frames, fr.width = w ∧ fr.height = h) := by
  unfold generate_frames at hok
  have hmain := render_frames_ok_inv (make_ctx env base msg w h fps dur)
    (fps * dur) 0 [] frames cacheWF_nil hok
  refine ⟨hmain.1, ?_, ?_⟩
  · intro k hk
    have hx := hmain.2.1 k hk
    rw [Nat.zero_add] at hx
    exact hx
  · intro fr hfr
    exact hmain.2.2 fr hfr

theorem frame_sequence_cex :
    (generate_frames env0 base0 "Hi" 720 720 15 5).toOption = none := by
  with_unfolding_all rfl

theorem frame_sequence_spec_witness :
    (generate_frames env0 base0 "Hi" 12 12 15 5).toOption.map List.length =
      some 75 := by
  cases hE : generate_frames env0 base0 "Hi" 12 12 15 5 with
  | error e =>
    have hok : (generate_frames env0 base0 "Hi" 12 12 15 5).toOption.isSome = true := by
      with_unfolding_all rfl
    rw [hE] at hok
    simp [Except.toOption] at hok
  | ok frames =>
    have hlen := (frame_sequence_spec env0 base0 "Hi" 12 12 15 5 frames hE).1
    simp [Except.toOption, hlen]

theorem inEllipse_false_x (x0 y0 x1 y1 px py : ℚ)
    (h : (x1 - x0) / 2 < |px - (x0 + x1) / 2|) :
    inEllipse x0 y0 x1 y1 px py = false := by
  unfold inEllipse
  rw [decide_eq_false (not_le.mpr h)]
  rfl

theorem inEllipse_false_y (x0 y0 x1 y1 px py : ℚ)
    (h : (y1 - y0) / 2 < |py - (y0 + y1) / 2|) :
    inEllipse x0 y0 x1 y1 px py = false := by
  unfold inEllipse
  rw [decide_eq_false (not_le.mpr h)]
  simp

theorem inEllipse_false_q (x0 y0 x1 y1 px py : ℚ)
    (h : (((x1 - x0) / 2) * ((y1 - y0) / 2)) ^ 2 <
      ((y1 - y0) / 2) ^ 2 * (px - (x0 + x1) / 2) ^ 2 +
        ((x1 - x0) / 2) ^ 2 * (py - (y0 + y1) / 2) ^ 2) :
    inEllipse x0 y0 x1 y1 px py = false := by
  unfold inEllipse
  rw [decide_eq_false (not_le.mpr h)]
  simp

theorem sameSide_false (ax ay bx my px py qx qy : ℚ)
    (h : cross2 ax ay bx my px py * cross2 ax ay bx my qx qy < 0) :
    sameSide ax ay bx my px py qx qy = false := by
  unfold sameSide
  exact decide_eq_false (not_le.mpr h)

theorem inTriangle_false_ab (ax ay bx my cx cy px py : ℚ)
    (h : sameSide ax ay bx my px py cx cy = false) :
    inTriangle ax ay bx my cx cy px py = false := by
  unfold inTriangle
  rw [h]
  rfl

theorem inTriangle_false_bc (ax ay bx my cx cy px py : ℚ)
    (h : sameSide bx my cx cy px py ax ay = false) :
    inTriangle ax ay bx my cx cy px py = false := by
  unfold inTriangle
  rw [h]
  simp

theorem inTriangle_false_ca (ax ay bx my cx cy px py : ℚ)
    (h : sameSide cx cy ax ay px py bx my = false) :
    inTriangle ax ay bx my cx cy px py = false := by
  unfold inTriangle
  rw [h]
  simp

theorem particle_bounds_spec_witness :
    (generate_hearts (fun _ => 0) 75 720).length = heart_count ∧
    (Heart.mk 0 0 21).x ≤ 720 ∧ (Heart.mk 0 0 21).size ≤ 8 * 720 / 100 := by
  have h := particle_bounds_spec (fun _ => 0) 75 720
  have hmem := h.2 ⟨0, 0, 21⟩ (by decide)
  exact ⟨h.1, hmem.2.2.1, hmem.2.2.2.2.1⟩

theorem pyInt_le (q : ℚ) (hq : 0 ≤ q) : ((pyInt q : ℤ) : ℚ) ≤ q := by
  unfold pyInt
  rw [if_pos hq]
  exact Int.floor_le q

theorem pyInt_gt (q : ℚ) (hq : 0 ≤ q) : q - 1 < ((pyInt q : ℤ) : ℚ) := by
  unfold pyInt
  rw [if_pos hq]
  have := Int.lt_floor_add_one q
  linarith

theorem pyInt_nonneg (q : ℚ) (hq : 0 ≤ q) : (0 : ℚ) ≤ ((pyInt q : ℤ) : ℚ) := by
  unfold pyInt
  rw [if_pos hq]
  exact_mod_cast Int.floor_nonneg.mpr hq

theorem pyInt_nonpos (q : ℚ) (hq : q ≤ 0) : ((pyInt q : ℤ) : ℚ) ≤ 0 := by
  unfold pyInt
  by_cases h : 0 ≤ q
  · rw [if_pos h]
    have h0 : q = 0 := le_antisymm hq h
    subst h0
    simp
  · rw [if_neg h]
    have : (0 : ℤ) ≤ ⌊-q⌋ := Int.floor_nonneg.mpr (by linarith)
    push_cast
    have : (0 : ℚ) ≤ ((⌊-q⌋ : ℤ) : ℚ) := by exact_mod_cast this
    linarith

theorem le_pyInt_of_nonpos (q : ℚ) (hq : q ≤ 0) : q ≤ ((pyInt q : ℤ) : ℚ) := by
  unfold pyInt
  by_cases h : 0 ≤ q
  · rw [if_pos h]
    have h0 : q = 0 := le_antisymm hq h
    subst h0
    simp
  · rw [if_neg h]
    have := Int.floor_le (-q)
    push_cast
    linarith

theorem pyInt_natCast (n : ℕ) : ((pyInt ((n : ℕ) : ℚ) : ℤ) : ℚ) = ((n : ℕ) : ℚ) := by
  unfold pyInt
  rw [if_pos (Nat.cast_nonneg n), Int.floor_natCast]
  simp

theorem ellipse_q_outside (x0 y0 x1 y1 px py : ℚ)
    (hdx : ((x1 - x0) / 2) ^ 2 ≤ (px - (x0 + x1) / 2) ^ 2)
    (hdy : (0 : ℚ) < (py - (y0 + y1) / 2) ^ 2)
    (ha : (0 : ℚ) < (x1 - x0) / 2) :
    inEllipse x0 y0 x1 y1 px py = false := by
  apply inEllipse_false_q
  have h1 : ((y1 - y0) / 2) ^ 2 * ((x1 - x0) / 2) ^ 2 ≤
      ((y1 - y0) / 2) ^ 2 * (px - (x0 + x1) / 2) ^ 2 :=
    mul_le_mul_of_nonneg_left hdx (sq_nonneg _)
  have h2 : (0 : ℚ) < ((x1 - x0) / 2) ^ 2 * (py - (y0 + y1) / 2) ^ 2 :=
    mul_pos (pow_pos ha 2) hdy
  nlinarith [h1, h2]

set_option maxHeartbeats 1600000 in
theorem heart_corner_shapes (ρ σ e1x0 ey0 e1x1 e2x0 e2x1 tay : ℚ)
    (hρ : 3 ≤ ρ) (hσ : 2 * ρ ≤ σ)
    (h10 : 0 ≤ e1x0) (h11 : e1x0 ≤ ρ / 20)
    (h20 : ey0 ≤ 0) (h21 : -(3 * ρ / 10) ≤ ey0)
    (h30 : 27 * ρ / 20 - 1 < e1x1) (h31 : e1x1 ≤ 27 * ρ / 20)
    (h40 : 0 ≤ e2x0) (h41 : e2x0 ≤ 13 * ρ / 20)
    (h50 : 39 * ρ / 20 - 1 < e2x1) (h52 : e2x1 ≤ σ - 1)
    (h60 : 7 * ρ / 20 - 1 < tay) (h61 : tay ≤ 7 * ρ / 20)
    (px py : ℚ) (hpx : px = 0 ∨ px = σ - 1) (hpy : py = 0 ∨ py = σ - 1) :
    inEllipse e1x0 ey0 e1x1 ρ px py = false ∧
    inEllipse e2x0 ey0 e2x1 ρ px py = false ∧
    inTriangle e1x0 tay e2x1 tay ρ σ px py = false := by
  have ha1 : (0 : ℚ) < (e1x1 - e1x0) / 2 := by linarith
  have ha2 : (0 : ℚ) < (e2x1 - e2x0) / 2 := by linarith
  have hb : (0 : ℚ) < (ρ - ey0) / 2 := by linarith
  rcases hpy with rfl | rfl
  · -- top row: py = 0
    have hdy : (0 : ℚ) < ((0 : ℚ) - (ey0 + ρ) / 2) ^ 2 := by
      have h : (0 : ℚ) < (ey0 + ρ) / 2 := by linarith
      calc (0 : ℚ) < ((ey0 + ρ) / 2) ^ 2 := pow_pos h 2
        _ = ((0 : ℚ) - (ey0 + ρ) / 2) ^ 2 := by ring
    refine ⟨?_, ?_, ?_⟩
    · apply ellipse_q_outside _ _ _ _ _ _ ?_ hdy ha1
      rcases hpx with rfl | rfl
      · nlinarith [mul_nonneg h10 (show (0 : ℚ) ≤ e1x1 by linarith)]
      · nlinarith [mul_nonneg (show (0 : ℚ) ≤ σ - 1 - e1x0 by linarith)
          (show (0 : ℚ) ≤ σ - 1 - e1x1 by linarith)]
    · apply ellipse_q_outside _ _ _ _ _ _ ?_ hdy ha2
      rcases hpx with rfl | rfl
      · nlinarith [mul_nonneg h40 (show (0 : ℚ) ≤ e2x1 by linarith)]
      · nlinarith [mul_nonneg (show (0 : ℚ) ≤ σ - 1 - e2x0 by linarith)
          (show (0 : ℚ) ≤ σ - 1 - e2x1 by linarith)]
    · apply inTriangle_false_ab
      apply sameSide_false
      apply mul_neg_of_neg_of_pos
      · unfold cross2
        nlinarith [mul_pos (show (0 : ℚ) < e2x1 - e1x0 by linarith)
          (show (0 : ℚ) < tay by linarith)]
      · unfold cross2
        nlinarith [mul_pos (show (0 : ℚ) < e2x1 - e1x0 by linarith)
          (show (0 : ℚ) < σ - tay by linarith)]
  · -- bottom row: py = σ - 1
    refine ⟨?_, ?_, ?_⟩
    · apply inEllipse_false_y
      rw [abs_of_nonneg (by linarith)]
      linarith
    · apply inEllipse_false_y
      rw [abs_of_nonneg (by linarith)]
      linarith
    · rcases hpx with rfl | rfl
      · apply inTriangle_false_ca
        apply sameSide_false
        apply mul_neg_of_neg_of_pos
        · unfold cross2
          have h0ρ : (0 : ℚ) ≤ ρ := by linarith
          nlinarith [mul_le_mul_of_nonneg_left h61 h0ρ,
            mul_le_mul_of_nonneg_left hσ h0ρ,
            mul_le_mul_of_nonneg_left hρ h0ρ]
        · unfold cross2
          nlinarith [mul_pos (show (0 : ℚ) < σ - tay by linarith)
            (show (0 : ℚ) < e2x1 - e1x0 by linarith)]
      · apply inTriangle_false_bc
        apply sameSide_false
        apply mul_neg_of_neg_of_pos
        · unfold cross2
          have t1 : (ρ - e2x1) * (σ - 1 - tay) < 0 :=
            mul_neg_of_neg_of_pos (by linarith) (by linarith)
          have t2 : (0 : ℚ) ≤ (σ - tay) * (σ - 1 - e2x1) :=
            mul_nonneg (by linarith) (by linarith)
          nlinarith [t1, t2]
        · unfold cross2
          nlinarith [mul_pos (show (0 : ℚ) < σ - tay by linarith)
            (show (0 : ℚ) < e2x1 - e1x0 by linarith)]

theorem heartRegion_corners_false (s : ℕ) (hs : 6 ≤ s) :
    heartRegion s 0 0 = false ∧ heartRegion s (s - 1) 0 = false ∧
    heartRegion s 0 (s - 1) = false ∧ heartRegion s (s - 1) (s - 1) = false := by
  have hρ3 : (3 : ℚ) ≤ ((s / 2 : ℕ) : ℚ) := by
    exact_mod_cast (by omega : 3 ≤ s / 2)
  have hρ0 : (0 : ℚ) ≤ ((s / 2 : ℕ) : ℚ) := by linarith
  have hσ : 2 * ((s / 2 : ℕ) : ℚ) ≤ ((s : ℕ) : ℚ) := by
    exact_mod_cast (by omega : 2 * (s / 2) ≤ s)
  have hs1 : ((s - 1 : ℕ) : ℚ) = ((s : ℕ) : ℚ) - 1 := by
    rw [Nat.cast_sub (by omega : 1 ≤ s), Nat.cast_one]
  have hq1 : (0 : ℚ) ≤ ((s / 2 : ℕ) : ℚ) - 2 * (((s / 2 : ℕ) : ℚ) * (13 / 20)) +
      ((s / 2 : ℕ) : ℚ) * (7 / 20) := by linarith
  have hq2 : ((s / 2 : ℕ) : ℚ) - 2 * (((s / 2 : ℕ) : ℚ) * (13 / 20)) ≤ 0 := by linarith
  have hq3 : (0 : ℚ) ≤ ((s / 2 : ℕ) : ℚ) + ((s / 2 : ℕ) : ℚ) * (7 / 20) := by linarith
  have hq4 : (0 : ℚ) ≤ ((s / 2 : ℕ) : ℚ) - ((s / 2 : ℕ) : ℚ) * (7 / 20) := by linarith
  have hq5 : (0 : ℚ) ≤ ((s / 2 : ℕ) : ℚ) + 2 * (((s / 2 : ℕ) : ℚ) * (13 / 20)) -
      ((s / 2 : ℕ) : ℚ) * (7 / 20) := by linarith
  have hq6 : (0 : ℚ) ≤ ((s / 2 : ℕ) : ℚ) - ((s / 2 : ℕ) : ℚ) * (13 / 20) := by linarith
  have h52 : ((pyInt (((s / 2 : ℕ) : ℚ) + 2 * (((s / 2 : ℕ) : ℚ) * (13 / 20)) -
      ((s / 2 : ℕ) : ℚ) * (7 / 20)) : ℤ) : ℚ) ≤ ((s : ℕ) : ℚ) - 1 := by
    have hlt : ((pyInt (((s / 2 : ℕ) : ℚ) + 2 * (((s / 2 : ℕ) : ℚ) * (13 / 20)) -
        ((s / 2 : ℕ) : ℚ) * (7 / 20)) : ℤ) : ℚ) < ((s : ℕ) : ℚ) :=
      lt_of_le_of_lt (pyInt_le _ hq5) (by linarith)
    have hltz : (pyInt (((s / 2 : ℕ) : ℚ) + 2 * (((s / 2 : ℕ) : ℚ) * (13 / 20)) -
        ((s / 2 : ℕ) : ℚ) * (7 / 20)) : ℤ) < ((s : ℕ) : ℤ) := by exact_mod_cast hlt
    have hlez : (pyInt (((s / 2 : ℕ) : ℚ) + 2 * (((s / 2 : ℕ) : ℚ) * (13 / 20)) -
        ((s / 2 : ℕ) : ℚ) * (7 / 20)) : ℤ) ≤ ((s : ℕ) : ℤ) - 1 := by omega
    have hcast : ((pyInt (((s / 2 : ℕ) : ℚ) + 2 * (((s / 2 : ℕ) : ℚ) * (13 / 20)) -
        ((s / 2 : ℕ) : ℚ) * (7 / 20)) : ℤ) : ℚ) ≤ ((((s : ℕ) : ℤ) - 1 : ℤ) : ℚ) := by
      exact_mod_cast hlez
    push_cast at hcast
    linarith
  have hc := fun px py hpx hpy => heart_corner_shapes ((s / 2 : ℕ) : ℚ) ((s : ℕ) : ℚ)
    ((pyInt (((s / 2 : ℕ) : ℚ) - 2 * (((s / 2 : ℕ) : ℚ) * (13 / 20)) +
      ((s / 2 : ℕ) : ℚ) * (7 / 20)) : ℤ) : ℚ)
    ((pyInt (((s / 2 : ℕ) : ℚ) - 2 * (((s / 2 : ℕ) : ℚ) * (13 / 20))) : ℤ) : ℚ)
    ((pyInt (((s / 2 : ℕ) : ℚ) + ((s / 2 : ℕ) : ℚ) * (7 / 20)) : ℤ) : ℚ)
    ((pyInt (((s / 2 : ℕ) : ℚ) - ((s / 2 : ℕ) : ℚ) * (7 / 20)) : ℤ) : ℚ)
    ((pyInt (((s / 2 : ℕ) : ℚ) + 2 * (((s / 2 : ℕ) : ℚ) * (13 / 20)) -
      ((s / 2 : ℕ) : ℚ) * (7 / 20)) : ℤ) : ℚ)
    ((pyInt (((s / 2 : ℕ) : ℚ) - ((s / 2 : ℕ) : ℚ) * (13 / 20)) : ℤ) : ℚ)
    hρ3 hσ
    (pyInt_nonneg _ hq1) (by have := pyInt_le _ hq1; linarith)
    (pyInt_nonpos _ hq2) (by have := le_pyInt_of_nonpos _ hq2; linarith)
    (by have := pyInt_gt _ hq3; linarith) (by have := pyInt_le _ hq3; linarith)
    (pyInt_nonneg _ hq4) (by have := pyInt_le _ hq4; linarith)
    (by have := pyInt_gt _ hq5; linarith) h52
    (by have := pyInt_gt _ hq6; linarith) (by have := pyInt_le _ hq6; linarith)
    px py hpx hpy
  refine ⟨?_, ?_, ?_, ?_⟩
  · simp only [heartRegion, Nat.cast_zero]
    rw [pyInt_natCast (s / 2), pyInt_natCast s,
      Bool.or_eq_false_iff, Bool.or_eq_false_iff]
    have h := hc 0 0 (Or.inl rfl) (Or.inl rfl)
    exact ⟨⟨h.1, h.2.1⟩, h.2.2⟩
  · simp only [heartRegion, Nat.cast_zero]
    rw [hs1, pyInt_natCast (s / 2), pyInt_natCast s,
      Bool.or_eq_false_iff, Bool.or_eq_false_iff]
    have h := hc (((s : ℕ) : ℚ) - 1) 0 (Or.inr rfl) (Or.inl rfl)
    exact ⟨⟨h.1, h.2.1⟩, h.2.2⟩
  · simp only [heartRegion, Nat.cast_zero]
    rw [hs1, pyInt_natCast (s / 2), pyInt_natCast s,
      Bool.or_eq_false_iff, Bool.or_eq_false_iff]
    have h := hc 0 (((s : ℕ) : ℚ) - 1) (Or.inl rfl) (Or.inr rfl)
    exact ⟨⟨h.1, h.2.1⟩, h.2.2⟩
  · simp only [heartRegion]
    rw [hs1, pyInt_natCast (s / 2), pyInt_natCast s,
      Bool.or_eq_false_iff, Bool.or_eq_false_iff]
    have h := hc (((s : ℕ) : ℚ) - 1) (((s : ℕ) : ℚ) - 1) (Or.inr rfl) (Or.inr rfl)
    exact ⟨⟨h.1, h.2.1⟩, h.2.2⟩

/-- C4 (amended): for every fill colour and every size `s ≥ 6`,
`create_heart` returns a square RGBA raster of exactly `s × s` pixels,
painted with the fill colour exactly on the union of the left circle, the
right circle (lobe radius `0.65 × (s//2)`, lobe horizontal offset
`0.35 × (s//2)`, coordinates truncated to ints by Pillow's draw bindings)
and the bottom triangle, and fully transparent elsewhere — in particular
all four corners are fully transparent.  The claim as stated, for every
`s > 0`, is false: for every `1 ≤ s ≤ 5` the int-truncated triangle top
edge (at `s = 1`, the degenerate shapes) paints the top-left corner
`(0, 0)` — see the counterexample. -/
theorem heart_sprite_spec (s : ℕ) (color : RGBA) (hs : 6 ≤ s) :
    (create_heart s color).width = s ∧
    (create_heart s color).height = s ∧
    (∀ i j : ℕ, (create_heart s color).px i j =
      if heartRegion s i j then color else (0, 0, 0, 0)) ∧
    (∀ i j : ℕ, heartRegion s i j =
      (inEllipse (pyInt (((s / 2 : ℕ) : ℚ) - 2 * (((s / 2 : ℕ) : ℚ) * (13 / 20)) +
          ((s / 2 : ℕ) : ℚ) * (7 / 20)) : ℚ)
        (pyInt (((s / 2 : ℕ) : ℚ) - 2 * (((s / 2 : ℕ) : ℚ) * (13 / 20))) : ℚ)
        (pyInt (((s / 2 : ℕ) : ℚ) + ((s / 2 : ℕ) : ℚ) * (7 / 20)) : ℚ)
        (pyInt ((s / 2 : ℕ) : ℚ) : ℚ) i j ||
      inEllipse (pyInt (((s / 2 : ℕ) : ℚ) - ((s / 2 : ℕ) : ℚ) * (7 / 20)) : ℚ)
        (pyInt (((s / 2 : ℕ) : ℚ) - 2 * (((s / 2 : ℕ) : ℚ) * (13 / 20))) : ℚ)
        (pyInt (((s / 2 : ℕ) : ℚ) + 2 * (((s / 2 : ℕ) : ℚ) * (13 / 20)) -
          ((s / 2 : ℕ) : ℚ) * (7 / 20)) : ℚ)
        (pyInt ((s / 2 : ℕ) : ℚ) : ℚ) i j ||
      inTriangle (pyInt (((s / 2 : ℕ) : ℚ) - 2 * (((s / 2 : ℕ) : ℚ) * (13 / 20)) +
          ((s / 2 : ℕ) : ℚ) * (7 / 20)) : ℚ)
        (pyInt (((s / 2 : ℕ) : ℚ) - ((s / 2 : ℕ) : ℚ) * (13 / 20)) : ℚ)
        (pyInt (((s / 2 : ℕ) : ℚ) + 2 * (((s / 2 : ℕ) : ℚ) * (13 / 20)) -
          ((s / 2 : ℕ) : ℚ) * (7 / 20)) : ℚ)
        (pyInt (((s / 2 : ℕ) : ℚ) - ((s / 2 : ℕ) : ℚ) * (13 / 20)) : ℚ)
        (pyInt ((s / 2 : ℕ) : ℚ) : ℚ) (pyInt ((s : ℕ) : ℚ) : ℚ) i j)) ∧
    (create_heart s color).px 0 0 = (0, 0, 0, 0) ∧
    (create_heart s color).px (s - 1) 0 = (0, 0, 0, 0) ∧
    (create_heart s color).px 0 (s - 1) = (0, 0, 0, 0) ∧
    (create_heart s color).px (s - 1) (s - 1) = (0, 0, 0, 0) := by
  have hcorners := heartRegion_corners_false s hs
  refine ⟨rfl, rfl, fun i j => rfl, fun i j => rfl, ?_, ?_, ?_, ?_⟩
  · show (if heartRegion s 0 0 then color else ((0, 0, 0, 0) : RGBA)) = (0, 0, 0, 0)
    rw [hcorners.1]
    rfl
  · show (if heartRegion s (s - 1) 0 then color else ((0, 0, 0, 0) : RGBA)) = (0, 0, 0, 0)
    rw [hcorners.2.1]
    rfl
  · show (if heartRegion s 0 (s - 1) then color else ((0, 0, 0, 0) : RGBA)) = (0, 0, 0, 0)
    rw [hcorners.2.2.1]
    rfl
  · show (if heartRegion s (s - 1) (s - 1) then color else ((0, 0, 0, 0) : RGBA)) = (0, 0, 0, 0)
    rw [hcorners.2.2.2]
    rfl

theorem heart_sprite_cex :
    ((create_heart 1 (255, 105, 180, 200)).px 0 0).2.2.2 = 200 ∧
    ((create_heart 5 (255, 105, 180, 200)).px 0 0).2.2.2 = 200 := by
  constructor
  · with_unfolding_all rfl
  · with_unfolding_all rfl

theorem heart_sprite_spec_witness :
    (create_heart 6 (10, 20, 30, 40)).width = 6 ∧
    (create_heart 6 (10, 20, 30, 40)).px 0 0 = (0, 0, 0, 0) ∧
    (create_heart 6 (10, 20, 30, 40)).px (6 - 1) (6 - 1) = (0, 0, 0, 0) := by
  have h := heart_sprite_spec 6 (10, 20, 30, 40) (by decide)
  exact ⟨h.1, h.2.2.2.2.1, h.2.2.2.2.2.2.2⟩
